import Mathlib

/-!
# Key management of the keyshare core (`internal/keysharecore/keys.go`)

A shallow embedding of the `Core` state, the `Configuration`, the constructor
`NewKeyshareCore` and the four key-management methods, followed by the
properties of the key ring, the signing identity and the trust store.

Go maps are embedded as association lists in which an assignment `m[k] = v`
replaces every earlier entry of `k`; a Go pointer is an `Option`
(`none` is `nil`).
-/

namespace Keysharecore

/-! ## Go maps -/

/-- A Go `map[K]V`: the list of its entries. -/
structure GoMap (K V : Type) where
  entries : List (K × V)
deriving DecidableEq, Repr

namespace GoMap

variable {K V : Type}

/-- The map literal `map[K]V{}`. -/
def empty : GoMap K V := ⟨[]⟩

/-- The comma-ok lookup `v, ok := m[k]`: `some v` when `ok`, else `none`. -/
def lookup [DecidableEq K] (m : GoMap K V) (k : K) : Option V :=
  (m.entries.find? (fun e => decide (e.1 = k))).map Prod.snd

/-- The assignment `m[k] = v`: the entry of `k` is created or replaced. -/
def assign [DecidableEq K] (m : GoMap K V) (k : K) (v : V) : GoMap K V :=
  ⟨(k, v) :: m.entries.filter (fun e => !decide (e.1 = k))⟩

/-- The builtin `len(m)`. -/
def len (m : GoMap K V) : Nat := m.entries.length

end GoMap

/-! ## Data model -/

/-- Go `uint32`. -/
abbrev uint32 := Fin 4294967296

/-- Go `uint64`. -/
abbrev uint64 := Fin 18446744073709551616

/-- The type `AesKey [32]byte`. -/
abbrev AesKey := { bytes : List (Fin 256) // bytes.length = 32 }

/-- The standard library's `rsa.PrivateKey`, as its modulus and its two exponents. -/
structure RsaPrivateKey where
  N : Nat
  E : Nat
  D : Nat
deriving DecidableEq, Repr

/-- The value of a `big.Int`. -/
abbrev BigInt := Int

/-- Modelled from the spec: `irma.PublicKeyIdentifier` is declared outside
`keys.go`; the spec calls it a composite identifier (scheme + counter). -/
structure PublicKeyIdentifier where
  Issuer : String
  Counter : Nat
deriving DecidableEq, Repr

/-- Modelled from the spec: `gabikeys.PublicKey` is declared outside `keys.go`;
the spec only says it is an issuer public key. It is kept as the key's modulus
and bases. -/
structure PublicKey where
  N : Nat
  Z : Nat
  S : Nat
  R : List Nat
deriving DecidableEq, Repr

/-- The state of a `sync.Mutex`; its zero value is unlocked. -/
structure Mutex where
  locked : Bool
deriving DecidableEq, Repr

/-- The struct `Core`. -/
structure Core where
  decryptionKeys : GoMap uint32 AesKey
  encryptionKey : AesKey
  encryptionKeyID : uint32
  signKey : Option RsaPrivateKey
  signKeyID : uint32
  commitmentData : GoMap uint64 (Option BigInt)
  commitmentMutex : Mutex
  trustedKeys : GoMap PublicKeyIdentifier (Option PublicKey)
deriving DecidableEq

/-- The struct `Configuration`. -/
structure Configuration where
  AESKeyID : uint32
  AESKey : AesKey
  SignKeyID : uint32
  SignKey : Option RsaPrivateKey
deriving DecidableEq

/-- The zero value of `AesKey`: thirty-two zero bytes. -/
def AesKey.zero : AesKey := ⟨List.replicate 32 0, by simp⟩

/-! ## Operations -/

/-- The method `DangerousAddAESKey`: `c.decryptionKeys[keyID] = key`. -/
def Core.DangerousAddAESKey (c : Core) (keyID : uint32) (key : AesKey) : Core :=
  { c with decryptionKeys := c.decryptionKeys.assign keyID key }

/-- The method `setAESEncryptionKey`: three assignments, in source order. -/
def Core.setAESEncryptionKey (c : Core) (keyID : uint32) (key : AesKey) : Core :=
  let c1 := { c with decryptionKeys := c.decryptionKeys.assign keyID key }
  let c2 := { c1 with encryptionKey := key }
  { c2 with encryptionKeyID := keyID }

/-- The method `setSignKey`. -/
def Core.setSignKey (c : Core) (id : uint32) (key : Option RsaPrivateKey) : Core :=
  let c1 := { c with signKey := key }
  { c1 with signKeyID := id }

/-- The method `DangerousAddTrustedPublicKey`: `c.trustedKeys[keyID] = key`. -/
def Core.DangerousAddTrustedPublicKey (c : Core) (keyID : PublicKeyIdentifier)
    (key : Option PublicKey) : Core :=
  { c with trustedKeys := c.trustedKeys.assign keyID key }

/-- The composite literal `&Core{decryptionKeys: ..., commitmentData: ...,
trustedKeys: ...}`: three empty maps, every other field at its zero value. -/
def Core.literal : Core :=
  { decryptionKeys := GoMap.empty
    encryptionKey := AesKey.zero
    encryptionKeyID := 0
    signKey := none
    signKeyID := 0
    commitmentData := GoMap.empty
    commitmentMutex := ⟨false⟩
    trustedKeys := GoMap.empty }

/-- The function `NewKeyshareCore`, for a non-nil `conf`. -/
def NewKeyshareCore (conf : Configuration) : Core :=
  let c := Core.literal
  let c := c.setAESEncryptionKey conf.AESKeyID conf.AESKey
  let c := c.setSignKey conf.SignKeyID conf.SignKey
  c

/-- A Go run-time panic. -/
inductive RuntimePanic where
  | nilPointerDereference
deriving DecidableEq, Repr

/-- A call `NewKeyshareCore(conf)` as its caller sees it. The function has the
single result `*Core` and no error result; `conf` is a pointer, and reading
`conf.AESKeyID` through a nil `conf` is the only way the call does not return. -/
def NewKeyshareCoreCall (conf : Option Configuration) : Except RuntimePanic Core :=
  match conf with
  | none => .error .nilPointerDereference
  | some cf => .ok (NewKeyshareCore cf)

/-- One call of a key-management method, with its arguments. -/
inductive Op where
  | DangerousAddAESKey (keyID : uint32) (key : AesKey)
  | setAESEncryptionKey (keyID : uint32) (key : AesKey)
  | setSignKey (id : uint32) (key : Option RsaPrivateKey)
  | DangerousAddTrustedPublicKey (keyID : PublicKeyIdentifier) (key : Option PublicKey)
deriving DecidableEq

/-- Performs one call on a core. -/
def Op.apply (op : Op) (c : Core) : Core :=
  match op with
  | .DangerousAddAESKey keyID key => c.DangerousAddAESKey keyID key
  | .setAESEncryptionKey keyID key => c.setAESEncryptionKey keyID key
  | .setSignKey id key => c.setSignKey id key
  | .DangerousAddTrustedPublicKey keyID key => c.DangerousAddTrustedPublicKey keyID key

/-- Performs a finite sequence of calls, first call first. -/
def runOps (ops : List Op) (c : Core) : Core :=
  ops.foldl (fun s op => op.apply s) c

/-- The core states reachable from `NewKeyshareCore(conf)` by key-management calls. -/
def Reachable (c : Core) : Prop :=
  ∃ (conf : Configuration) (ops : List Op), c = runOps ops (NewKeyshareCore conf)

/-- The active encryption key is registered for decryption under its own ID. -/
def ActiveKeyRegistered (c : Core) : Prop :=
  c.decryptionKeys.lookup c.encryptionKeyID = some c.encryptionKey

instance (c : Core) : Decidable (ActiveKeyRegistered c) := by
  unfold ActiveKeyRegistered; infer_instance

/-- The AES assignment a call makes, if any: the ID and key it writes into `decryptionKeys`. -/
def Op.aesAssignment : Op → Option (uint32 × AesKey)
  | .DangerousAddAESKey keyID key => some (keyID, key)
  | .setAESEncryptionKey keyID key => some (keyID, key)
  | .setSignKey _ _ => none
  | .DangerousAddTrustedPublicKey _ _ => none

/-- A call leaves the entry of the active key alone: it is not a
`DangerousAddAESKey` that names the active ID with another key. -/
def Op.keepsActiveKey (op : Op) (c : Core) : Prop :=
  match op with
  | .DangerousAddAESKey keyID key => keyID = c.encryptionKeyID → key = c.encryptionKey
  | _ => True

instance (op : Op) (c : Core) : Decidable (op.keepsActiveKey c) := by
  cases op <;> unfold Op.keepsActiveKey <;> infer_instance

/-- Every call of a sequence leaves the entry of the then-active key alone. -/
def opsKeepActiveKey : List Op → Core → Prop
  | [], _ => True
  | op :: rest, c => op.keepsActiveKey c ∧ opsKeepActiveKey rest (op.apply c)

instance opsKeepActiveKeyDecidable : (ops : List Op) → (c : Core) →
    Decidable (opsKeepActiveKey ops c)
  | [], _ => isTrue trivial
  | op :: rest, c =>
    have := opsKeepActiveKeyDecidable rest (op.apply c)
    (inferInstance : Decidable (op.keepsActiveKey c ∧ opsKeepActiveKey rest (op.apply c)))

/-! ## Sample data -/

/-- An AES key: thirty-two bytes `0x01`. -/
def keyA : AesKey := ⟨List.replicate 32 1, by simp⟩

/-- Another AES key: thirty-two bytes `0x02`. -/
def keyB : AesKey := ⟨List.replicate 32 2, by simp⟩

/-- A small RSA private key. -/
def sampleSignKey : RsaPrivateKey := ⟨3233, 17, 2753⟩

/-- A complete configuration: AES key `keyA` under ID 1, signing key under ID 7. -/
def confA : Configuration :=
  { AESKeyID := 1, AESKey := keyA, SignKeyID := 7, SignKey := some sampleSignKey }

/-- A configuration whose `SignKey` is nil. -/
def confNoSignKey : Configuration :=
  { AESKeyID := 1, AESKey := keyA, SignKeyID := 7, SignKey := none }

/-- An issuer key identifier. -/
def issuerX : PublicKeyIdentifier := ⟨"irma-demo.RU", 2⟩

/-- Another issuer key identifier. -/
def issuerY : PublicKeyIdentifier := ⟨"irma-demo.MijnOverheid", 1⟩

/-- An issuer public key. -/
def pubK1 : PublicKey := ⟨3233, 4, 9, [16, 25]⟩

/-- Another issuer public key. -/
def pubK2 : PublicKey := ⟨3127, 4, 9, [36, 49]⟩

/-- The core of `confA` after `DangerousAddAESKey(1, keyB)`. -/
def coreOverwritten : Core :=
  runOps [Op.DangerousAddAESKey 1 keyB] (NewKeyshareCore confA)

/-- A sample sequence of calls: a legacy key, a rotation, a trusted key, a new
signing key, and a re-registration of the active key under its own ID. -/
def sampleOps : List Op :=
  [Op.DangerousAddAESKey 5 keyB,
   Op.setAESEncryptionKey 2 keyB,
   Op.DangerousAddTrustedPublicKey issuerX (some pubK1),
   Op.setSignKey 8 none,
   Op.DangerousAddAESKey 2 keyB,
   Op.DangerousAddAESKey 1 keyA]

/-- The core of `confA` after `DangerousAddTrustedPublicKey(issuerX, pubK1)`. -/
def coreTrustingX : Core :=
  (NewKeyshareCore confA).DangerousAddTrustedPublicKey issuerX (some pubK1)

/-- A sequence of calls that adds `issuerY` and changes the other stores, without
naming `issuerX`. -/
def laterOps : List Op :=
  [Op.DangerousAddTrustedPublicKey issuerY (some pubK2),
   Op.setAESEncryptionKey 2 keyB,
   Op.setSignKey 8 none,
   Op.DangerousAddAESKey 1 keyB]

/-! ## Map lemmas -/

namespace GoMap

variable {K V : Type} [DecidableEq K]

@[simp] theorem lookup_empty (k : K) : (empty : GoMap K V).lookup k = none := rfl

@[simp] theorem lookup_assign_self (m : GoMap K V) (k : K) (v : V) :
    (m.assign k v).lookup k = some v := by
  simp [lookup, assign]

theorem lookup_assign_of_ne (m : GoMap K V) (k j : K) (v : V) (h : j ≠ k) :
    (m.assign k v).lookup j = m.lookup j := by
  have hk : ¬ k = j := fun e => h e.symm
  simp only [lookup, assign, List.find?_cons, hk, decide_False]
  congr 1
  induction m.entries with
  | nil => rfl
  | cons e es ih =>
    by_cases he : e.1 = k
    · have hj : ¬ e.1 = j := fun e2 => h (e2.symm.trans he)
      have hfil : List.filter (fun x : K × V => !decide (x.1 = k)) (e :: es)
          = List.filter (fun x : K × V => !decide (x.1 = k)) es := by
        simp [List.filter_cons, he]
      have hfind : List.find? (fun x : K × V => decide (x.1 = j)) (e :: es)
          = List.find? (fun x : K × V => decide (x.1 = j)) es := by
        simp [List.find?_cons, hj]
      rw [hfil, hfind]
      exact ih
    · have hfil : List.filter (fun x : K × V => !decide (x.1 = k)) (e :: es)
          = e :: List.filter (fun x : K × V => !decide (x.1 = k)) es := by
        simp [List.filter_cons, he]
      rw [hfil]
      by_cases hj : e.1 = j
      · simp [List.find?_cons, hj]
      · simp only [List.find?_cons, hj, decide_False]
        exact ih

theorem lookup_assign (m : GoMap K V) (k j : K) (v : V) :
    (m.assign k v).lookup j = if j = k then some v else m.lookup j := by
  by_cases h : j = k
  · subst h; simp
  · simp [h, lookup_assign_of_ne m k j v h]

theorem lookup_assign_isSome (m : GoMap K V) (k j : K) (v : V)
    (h : (m.lookup j).isSome) : ((m.assign k v).lookup j).isSome := by
  rw [lookup_assign]; split <;> simp [h]

end GoMap

/-! ## Field lemmas of the four methods -/

@[simp] theorem DangerousAddAESKey_decryptionKeys (c : Core) (id : uint32) (k : AesKey) :
    (c.DangerousAddAESKey id k).decryptionKeys = c.decryptionKeys.assign id k := rfl

@[simp] theorem setAESEncryptionKey_decryptionKeys (c : Core) (id : uint32) (k : AesKey) :
    (c.setAESEncryptionKey id k).decryptionKeys = c.decryptionKeys.assign id k := rfl

@[simp] theorem setAESEncryptionKey_encryptionKey (c : Core) (id : uint32) (k : AesKey) :
    (c.setAESEncryptionKey id k).encryptionKey = k := rfl

@[simp] theorem setAESEncryptionKey_encryptionKeyID (c : Core) (id : uint32) (k : AesKey) :
    (c.setAESEncryptionKey id k).encryptionKeyID = id := rfl

@[simp] theorem DangerousAddTrustedPublicKey_trustedKeys (c : Core)
    (id : PublicKeyIdentifier) (k : Option PublicKey) :
    (c.DangerousAddTrustedPublicKey id k).trustedKeys = c.trustedKeys.assign id k := rfl

theorem runOps_cons (op : Op) (ops : List Op) (c : Core) :
    runOps (op :: ops) c = runOps ops (op.apply c) := rfl

/-- The constructor establishes the key-ring invariant. -/
theorem NewKeyshareCore_activeKeyRegistered (conf : Configuration) :
    ActiveKeyRegistered (NewKeyshareCore conf) := by
  simp [ActiveKeyRegistered, NewKeyshareCore, Core.setSignKey]

/-- One call that leaves the active entry alone preserves the key-ring invariant. -/
theorem apply_activeKeyRegistered (op : Op) (c : Core)
    (hinv : ActiveKeyRegistered c) (hop : op.keepsActiveKey c) :
    ActiveKeyRegistered (op.apply c) := by
  unfold ActiveKeyRegistered at *
  cases op with
  | DangerousAddAESKey keyID key =>
    simp only [Op.apply, Op.keepsActiveKey] at *
    show (c.decryptionKeys.assign keyID key).lookup c.encryptionKeyID = some c.encryptionKey
    rw [GoMap.lookup_assign]
    by_cases h : c.encryptionKeyID = keyID
    · rw [if_pos h, hop h.symm]
    · rw [if_neg h]; exact hinv
  | setAESEncryptionKey keyID key =>
    simp [Op.apply]
  | setSignKey id key => exact hinv
  | DangerousAddTrustedPublicKey keyID key => exact hinv

/-- A sequence of calls that leave the active entry alone preserves the key-ring invariant. -/
theorem runOps_activeKeyRegistered (ops : List Op) (c : Core)
    (hinv : ActiveKeyRegistered c) (hops : opsKeepActiveKey ops c) :
    ActiveKeyRegistered (runOps ops c) := by
  induction ops generalizing c with
  | nil => exact hinv
  | cons op rest ih =>
    rw [runOps_cons]
    exact ih (op.apply c) (apply_activeKeyRegistered op c hinv hops.1) hops.2

/-- No call removes an entry of `trustedKeys`. -/
theorem apply_trustedKeys_present (op : Op) (c : Core) (id : PublicKeyIdentifier)
    (h : (c.trustedKeys.lookup id).isSome = true) :
    ((op.apply c).trustedKeys.lookup id).isSome = true := by
  cases op with
  | DangerousAddAESKey keyID key => exact h
  | setAESEncryptionKey keyID key => exact h
  | setSignKey i key => exact h
  | DangerousAddTrustedPublicKey keyID key =>
    exact GoMap.lookup_assign_isSome c.trustedKeys keyID id key h

/-- No sequence of calls removes an entry of `trustedKeys`. -/
theorem runOps_trustedKeys_present (ops : List Op) (c : Core) (id : PublicKeyIdentifier)
    (h : (c.trustedKeys.lookup id).isSome = true) :
    ((runOps ops c).trustedKeys.lookup id).isSome = true := by
  induction ops generalizing c with
  | nil => exact h
  | cons op rest ih =>
    rw [runOps_cons]
    exact ih (op.apply c) (apply_trustedKeys_present op c id h)

/-- An entry of `trustedKeys` keeps its key through a sequence of calls in which every
`DangerousAddTrustedPublicKey` for its identifier passes that same key. -/
theorem runOps_trustedKeys_lookup (ops : List Op) (c : Core) (id : PublicKeyIdentifier)
    (k : Option PublicKey) (h : c.trustedKeys.lookup id = some k)
    (hops : ∀ k2 : Option PublicKey, Op.DangerousAddTrustedPublicKey id k2 ∈ ops → k2 = k) :
    (runOps ops c).trustedKeys.lookup id = some k := by
  induction ops generalizing c with
  | nil => exact h
  | cons op rest ih =>
    rw [runOps_cons]
    refine ih (op.apply c) ?_ (fun k2 hk2 => hops k2 (List.mem_cons_of_mem _ hk2))
    cases op with
    | DangerousAddAESKey keyID key => exact h
    | setAESEncryptionKey keyID key => exact h
    | setSignKey i key => exact h
    | DangerousAddTrustedPublicKey keyID key =>
      show (c.trustedKeys.assign keyID key).lookup id = some k
      rw [GoMap.lookup_assign]
      by_cases hid : id = keyID
      · subst hid
        rw [if_pos rfl, hops key (List.mem_cons_self _ _)]
      · rw [if_neg hid]; exact h

/-! ## The key ring -/

/-- C1, as stated, fails: the core of `confA` after `DangerousAddAESKey(1, keyB)` is
reachable, its active key is still `keyA` under ID 1, and `decryptionKeys[1]` is
`keyB`, so the active key is no longer registered under its own ID. -/
theorem C1_active_key_overwritten :
    Reachable coreOverwritten ∧
    coreOverwritten.encryptionKeyID = 1 ∧
    coreOverwritten.encryptionKey = keyA ∧
    coreOverwritten.decryptionKeys.lookup 1 = some keyB ∧
    ¬ ActiveKeyRegistered coreOverwritten := by
  refine ⟨⟨confA, [Op.DangerousAddAESKey 1 keyB], rfl⟩, rfl, rfl, by decide, by decide⟩

/-- C1, amended: in every state reached from `NewKeyshareCore(conf)` by a finite
sequence of key-management calls in which no `DangerousAddAESKey` call names the
then-active key ID with a key other than the active key, `decryptionKeys[encryptionKeyID]`
is present and equals `encryptionKey`. -/
theorem C1_active_key_registered (conf : Configuration) (ops : List Op)
    (hops : opsKeepActiveKey ops (NewKeyshareCore conf)) :
    (runOps ops (NewKeyshareCore conf)).decryptionKeys.lookup
        (runOps ops (NewKeyshareCore conf)).encryptionKeyID
      = some (runOps ops (NewKeyshareCore conf)).encryptionKey :=
  runOps_activeKeyRegistered ops (NewKeyshareCore conf)
    (NewKeyshareCore_activeKeyRegistered conf) hops

/-- C1 witness: the amended invariant at `confA` and `sampleOps`. -/
theorem C1_active_key_registered_witness :
    opsKeepActiveKey sampleOps (NewKeyshareCore confA) ∧
    (runOps sampleOps (NewKeyshareCore confA)).decryptionKeys.lookup
        (runOps sampleOps (NewKeyshareCore confA)).encryptionKeyID
      = some (runOps sampleOps (NewKeyshareCore confA)).encryptionKey :=
  ⟨by decide, C1_active_key_registered confA sampleOps (by decide)⟩

/-- C2: after `setAESEncryptionKey(id, k)` the core has `encryptionKey = k`,
`encryptionKeyID = id` and `decryptionKeys[id] = k`. -/
theorem C2_setAESEncryptionKey_configures (c : Core) (id : uint32) (k : AesKey) :
    (c.setAESEncryptionKey id k).encryptionKey = k ∧
    (c.setAESEncryptionKey id k).encryptionKeyID = id ∧
    (c.setAESEncryptionKey id k).decryptionKeys.lookup id = some k := by
  simp

/-- C3, as stated, fails in two ways. Re-configuring the active ID 1 of the core of
`confA` with `keyB` replaces `decryptionKeys[1]`, so the old key `keyA` is no longer
registered under ID 1. And in `coreOverwritten`, whose active key `keyA` under ID 1 is
not registered, a rotation to ID 2 leaves `decryptionKeys[1] = keyB`, not `keyA`. -/
theorem C3_rotation_loses_old_key :
    ((NewKeyshareCore confA).encryptionKeyID = 1 ∧
      (NewKeyshareCore confA).encryptionKey = keyA ∧
      ((NewKeyshareCore confA).setAESEncryptionKey 1 keyB).decryptionKeys.lookup 1
        = some keyB ∧
      ((NewKeyshareCore confA).setAESEncryptionKey 1 keyB).decryptionKeys.lookup 1
        ≠ some keyA) ∧
    (coreOverwritten.encryptionKeyID = 1 ∧
      coreOverwritten.encryptionKey = keyA ∧
      (coreOverwritten.setAESEncryptionKey 2 keyB).decryptionKeys.lookup 1 = some keyB ∧
      (coreOverwritten.setAESEncryptionKey 2 keyB).decryptionKeys.lookup 1 ≠ some keyA) := by
  refine ⟨⟨rfl, rfl, by decide, by decide⟩, rfl, rfl, by decide, by decide⟩

/-- C3, amended: for every Core state whose active key `oldKey` is registered under its
ID `oldID`, and every `newID`, `newKey` with `newID ≠ oldID` or `newKey = oldKey`, after
`setAESEncryptionKey(newID, newKey)` we have `decryptionKeys[oldID] = oldKey` and
`encryptionKeyID = newID`. -/
theorem C3_rotation_keeps_old_key (c : Core) (newID : uint32) (newKey : AesKey)
    (hreg : c.decryptionKeys.lookup c.encryptionKeyID = some c.encryptionKey)
    (hnew : newID ≠ c.encryptionKeyID ∨ newKey = c.encryptionKey) :
    (c.setAESEncryptionKey newID newKey).decryptionKeys.lookup c.encryptionKeyID
      = some c.encryptionKey ∧
    (c.setAESEncryptionKey newID newKey).encryptionKeyID = newID := by
  refine ⟨?_, rfl⟩
  rw [setAESEncryptionKey_decryptionKeys, GoMap.lookup_assign]
  by_cases h : c.encryptionKeyID = newID
  · rw [if_pos h]
    rcases hnew with hne | heq
    · exact absurd h.symm hne
    · rw [heq]
  · rw [if_neg h]; exact hreg

/-- C3 witness: rotating the core of `confA` from ID 1 to ID 2 with `keyB`. -/
theorem C3_rotation_keeps_old_key_witness :
    (NewKeyshareCore confA).decryptionKeys.lookup (NewKeyshareCore confA).encryptionKeyID
      = some (NewKeyshareCore confA).encryptionKey ∧
    ((2 : uint32) ≠ (NewKeyshareCore confA).encryptionKeyID ∨
      keyB = (NewKeyshareCore confA).encryptionKey) ∧
    ((NewKeyshareCore confA).setAESEncryptionKey 2 keyB).decryptionKeys.lookup 1
      = some keyA ∧
    ((NewKeyshareCore confA).setAESEncryptionKey 2 keyB).encryptionKeyID = 2 :=
  ⟨by decide, by decide,
    C3_rotation_keeps_old_key (NewKeyshareCore confA) 2 keyB (by decide) (by decide)⟩

/-- C4: `DangerousAddAESKey(id, k)` makes `decryptionKeys[id] = k`, leaves
`encryptionKey` and `encryptionKeyID` as they were, and leaves the `decryptionKeys`
entry of every other ID as it was. -/
theorem C4_DangerousAddAESKey_registers (c : Core) (id : uint32) (k : AesKey) :
    (c.DangerousAddAESKey id k).decryptionKeys.lookup id = some k ∧
    (c.DangerousAddAESKey id k).encryptionKey = c.encryptionKey ∧
    (c.DangerousAddAESKey id k).encryptionKeyID = c.encryptionKeyID ∧
    ∀ j : uint32, j ≠ id →
      (c.DangerousAddAESKey id k).decryptionKeys.lookup j = c.decryptionKeys.lookup j := by
  refine ⟨by simp, rfl, rfl, ?_⟩
  intro j hj
  rw [DangerousAddAESKey_decryptionKeys, GoMap.lookup_assign_of_ne _ _ _ _ hj]

/-- C4 witness: adding `keyB` under ID 5 to the core of `confA` leaves the entry of
ID 1 as it was. -/
theorem C4_DangerousAddAESKey_registers_witness :
    ((NewKeyshareCore confA).DangerousAddAESKey 5 keyB).decryptionKeys.lookup 1
      = some keyA :=
  ((C4_DangerousAddAESKey_registers (NewKeyshareCore confA) 5 keyB).2.2.2 1
    (by decide)).trans (by decide)

/-- C5, as stated, fails: in the core of `confA`, `decryptionKeys[1] = keyA`, and after
`DangerousAddAESKey(1, keyB)`, and likewise after `setAESEncryptionKey(1, keyB)`,
`decryptionKeys[1]` is `keyB`, not `keyA`. -/
theorem C5_registered_key_replaced :
    (NewKeyshareCore confA).decryptionKeys.lookup 1 = some keyA ∧
    ((Op.DangerousAddAESKey 1 keyB).apply (NewKeyshareCore confA)).decryptionKeys.lookup 1
      = some keyB ∧
    ((Op.setAESEncryptionKey 1 keyB).apply (NewKeyshareCore confA)).decryptionKeys.lookup 1
      = some keyB ∧
    (some keyB : Option AesKey) ≠ some keyA := by
  refine ⟨by decide, by decide, by decide, by decide⟩

/-- C5, amended: every ID registered for decryption remains registered. If
`decryptionKeys[i] = k` before one of the four calls, then `decryptionKeys[i]` is still
present after it; it still equals `k` unless the call is `DangerousAddAESKey(i, k2)` or
`setAESEncryptionKey(i, k2)` with `k2 ≠ k`, and after such a call it equals `k2`. -/
theorem C5_registered_id_stays (c : Core) (op : Op) (i : uint32) (k : AesKey)
    (h : c.decryptionKeys.lookup i = some k) :
    ((op.apply c).decryptionKeys.lookup i).isSome = true ∧
    ((∀ k2 : AesKey, op.aesAssignment = some (i, k2) → k2 = k) →
      (op.apply c).decryptionKeys.lookup i = some k) ∧
    (∀ k2 : AesKey, op.aesAssignment = some (i, k2) →
      (op.apply c).decryptionKeys.lookup i = some k2) := by
  cases op with
  | DangerousAddAESKey keyID key =>
    simp only [Op.apply, Op.aesAssignment, DangerousAddAESKey_decryptionKeys,
      GoMap.lookup_assign, Option.some.injEq, Prod.mk.injEq]
    by_cases hi : i = keyID
    · subst hi
      simp only [if_true, Option.isSome_some, true_and, Option.some.injEq]
      exact ⟨fun hk => hk key rfl, fun k2 hk2 => hk2⟩
    · have hi2 : ¬ keyID = i := fun e => hi e.symm
      simp [hi, hi2, h]
  | setAESEncryptionKey keyID key =>
    simp only [Op.apply, Op.aesAssignment, setAESEncryptionKey_decryptionKeys,
      GoMap.lookup_assign, Option.some.injEq, Prod.mk.injEq]
    by_cases hi : i = keyID
    · subst hi
      simp only [if_true, Option.isSome_some, true_and, Option.some.injEq]
      exact ⟨fun hk => hk key rfl, fun k2 hk2 => hk2⟩
    · have hi2 : ¬ keyID = i := fun e => hi e.symm
      simp [hi, hi2, h]
  | setSignKey id key =>
    have hd : ((Op.setSignKey id key).apply c).decryptionKeys = c.decryptionKeys := rfl
    simp [hd, h, Op.aesAssignment]
  | DangerousAddTrustedPublicKey keyID key =>
    have hd : ((Op.DangerousAddTrustedPublicKey keyID key).apply c).decryptionKeys
        = c.decryptionKeys := rfl
    simp [hd, h, Op.aesAssignment]

/-- C5 witness: in the core of `confA`, the entry of ID 1 survives
`DangerousAddAESKey(5, keyB)` with its key `keyA`. -/
theorem C5_registered_id_stays_witness :
    (NewKeyshareCore confA).decryptionKeys.lookup 1 = some keyA ∧
    ((Op.DangerousAddAESKey 5 keyB).apply (NewKeyshareCore confA)).decryptionKeys.lookup 1
      = some keyA :=
  ⟨by decide,
    (C5_registered_id_stays (NewKeyshareCore confA) (Op.DangerousAddAESKey 5 keyB) 1 keyA
      (by decide)).2.1
      (fun k2 hk2 =>
        absurd (show some (5 : uint32) = some 1 from congrArg (Option.map Prod.fst) hk2)
          (by decide))⟩

/-! ## The trust store -/

/-- C6: in the core returned by `NewKeyshareCore` the lookup of any identifier in
`trustedKeys` finds nothing; and after `DangerousAddTrustedPublicKey(id, k)` the lookup
of `id` returns `k`, while the lookup of every other identifier is as before. -/
theorem C6_trust_store_lookup :
    (∀ (conf : Configuration) (id : PublicKeyIdentifier),
      (NewKeyshareCore conf).trustedKeys.lookup id = none) ∧
    (∀ (c : Core) (id : PublicKeyIdentifier) (k : Option PublicKey),
      (c.DangerousAddTrustedPublicKey id k).trustedKeys.lookup id = some k ∧
      ∀ j : PublicKeyIdentifier, j ≠ id →
        (c.DangerousAddTrustedPublicKey id k).trustedKeys.lookup j
          = c.trustedKeys.lookup j) := by
  refine ⟨fun conf id => rfl, fun c id k => ⟨by simp, fun j hj => ?_⟩⟩
  rw [DangerousAddTrustedPublicKey_trustedKeys, GoMap.lookup_assign_of_ne _ _ _ _ hj]

/-- C6 witness: after `issuerX` is added to the core of `confA`, `issuerX` maps to
`pubK1` and `issuerY` is still untrusted. -/
theorem C6_trust_store_lookup_witness :
    coreTrustingX.trustedKeys.lookup issuerX = some (some pubK1) ∧
    coreTrustingX.trustedKeys.lookup issuerY = none :=
  ⟨(C6_trust_store_lookup.2 (NewKeyshareCore confA) issuerX (some pubK1)).1,
    ((C6_trust_store_lookup.2 (NewKeyshareCore confA) issuerX (some pubK1)).2 issuerY
      (by decide)).trans (C6_trust_store_lookup.1 confA issuerY)⟩

/-- C7, as stated, fails: after `DangerousAddTrustedPublicKey(issuerX, pubK1)`, a later
`DangerousAddTrustedPublicKey(issuerX, pubK2)` makes `issuerX` map to `pubK2`, not to
`pubK1`. -/
theorem C7_trusted_key_replaced :
    coreTrustingX.trustedKeys.lookup issuerX = some (some pubK1) ∧
    (runOps [Op.DangerousAddTrustedPublicKey issuerX (some pubK2)]
        coreTrustingX).trustedKeys.lookup issuerX = some (some pubK2) ∧
    (runOps [Op.DangerousAddTrustedPublicKey issuerX (some pubK2)]
        coreTrustingX).trustedKeys.lookup issuerX ≠ some (some pubK1) := by
  refine ⟨by decide, by decide, by decide⟩

/-- C7, amended: once `id` has been added with `DangerousAddTrustedPublicKey(id, k)`, in
every state reached afterwards by a finite sequence of key-management calls `id` is
still present in `trustedKeys`; and it still maps to `k` when no later
`DangerousAddTrustedPublicKey` call names `id` with a key other than `k`. -/
theorem C7_trusted_id_stays (c : Core) (id : PublicKeyIdentifier) (k : Option PublicKey)
    (ops : List Op) :
    ((runOps ops (c.DangerousAddTrustedPublicKey id k)).trustedKeys.lookup id).isSome
      = true ∧
    ((∀ k2 : Option PublicKey, Op.DangerousAddTrustedPublicKey id k2 ∈ ops → k2 = k) →
      (runOps ops (c.DangerousAddTrustedPublicKey id k)).trustedKeys.lookup id
        = some k) := by
  have h0 : (c.DangerousAddTrustedPublicKey id k).trustedKeys.lookup id = some k := by simp
  exact ⟨runOps_trustedKeys_present ops _ id (by rw [h0]; rfl),
    fun hops => runOps_trustedKeys_lookup ops _ id k h0 hops⟩

/-- C7 witness: `issuerX`, added to the core of `confA` with `pubK1`, still maps to
`pubK1` after `laterOps`. -/
theorem C7_trusted_id_stays_witness :
    (runOps laterOps coreTrustingX).trustedKeys.lookup issuerX = some (some pubK1) :=
  (C7_trusted_id_stays (NewKeyshareCore confA) issuerX (some pubK1) laterOps).2
    (fun k2 hk2 => by
      simp only [laterOps, List.mem_cons, List.mem_singleton, List.not_mem_nil] at hk2
      rcases hk2 with h | h | h | h | h
      · exact absurd (Op.DangerousAddTrustedPublicKey.inj h).1 (by decide)
      · cases h
      · cases h
      · cases h
      · exact absurd h id)

/-! ## Startup -/

/-- C8, as stated, fails: `confNoSignKey` has a nil `SignKey`, and the call
`NewKeyshareCore(confNoSignKey)` returns a core, with a nil `signKey`, and reports no
error. -/
theorem C8_missing_sign_key_accepted :
    confNoSignKey.SignKey = none ∧
    NewKeyshareCoreCall (some confNoSignKey) = Except.ok (NewKeyshareCore confNoSignKey) ∧
    (NewKeyshareCore confNoSignKey).signKey = none ∧
    ¬ ∃ e : RuntimePanic, NewKeyshareCoreCall (some confNoSignKey) = Except.error e := by
  refine ⟨rfl, rfl, rfl, ?_⟩
  rintro ⟨e, he⟩
  cases he

/-- C8, amended: `NewKeyshareCore` does not validate its configuration. For every
Configuration whose `SignKey` is nil the call reports no error and returns a core whose
`signKey` is nil, with `signKeyID`, `encryptionKey`, `encryptionKeyID` and
`decryptionKeys` set from the configuration as for any other one. -/
theorem C8_missing_sign_key_returns_core (conf : Configuration)
    (h : conf.SignKey = none) :
    NewKeyshareCoreCall (some conf) = Except.ok (NewKeyshareCore conf) ∧
    (NewKeyshareCore conf).signKey = none ∧
    (NewKeyshareCore conf).signKeyID = conf.SignKeyID ∧
    (NewKeyshareCore conf).encryptionKey = conf.AESKey ∧
    (NewKeyshareCore conf).encryptionKeyID = conf.AESKeyID ∧
    (NewKeyshareCore conf).decryptionKeys.lookup conf.AESKeyID = some conf.AESKey := by
  refine ⟨rfl, h, rfl, rfl, rfl, ?_⟩
  exact NewKeyshareCore_activeKeyRegistered conf

/-- C8 witness: the amended statement at `confNoSignKey`. -/
theorem C8_missing_sign_key_returns_core_witness :
    confNoSignKey.SignKey = none ∧
    NewKeyshareCoreCall (some confNoSignKey) = Except.ok (NewKeyshareCore confNoSignKey) ∧
    (NewKeyshareCore confNoSignKey).signKey = none :=
  ⟨rfl, (C8_missing_sign_key_returns_core confNoSignKey rfl).1,
    (C8_missing_sign_key_returns_core confNoSignKey rfl).2.1⟩

/-- C9: the core returned by `NewKeyshareCore(conf)` has `encryptionKeyID = conf.AESKeyID`,
`encryptionKey = conf.AESKey`, `signKeyID = conf.SignKeyID`, `signKey = conf.SignKey`; its
`decryptionKeys` holds exactly one entry, `conf.AESKeyID` mapped to `conf.AESKey`; its
`commitmentData` and `trustedKeys` are empty. -/
theorem C9_NewKeyshareCore_fields (conf : Configuration) :
    (NewKeyshareCore conf).encryptionKeyID = conf.AESKeyID ∧
    (NewKeyshareCore conf).encryptionKey = conf.AESKey ∧
    (NewKeyshareCore conf).signKeyID = conf.SignKeyID ∧
    (NewKeyshareCore conf).signKey = conf.SignKey ∧
    (NewKeyshareCore conf).decryptionKeys.entries = [(conf.AESKeyID, conf.AESKey)] ∧
    (NewKeyshareCore conf).decryptionKeys.len = 1 ∧
    (NewKeyshareCore conf).decryptionKeys.lookup conf.AESKeyID = some conf.AESKey ∧
    (NewKeyshareCore conf).commitmentData = GoMap.empty ∧
    (NewKeyshareCore conf).commitmentData.len = 0 ∧
    (NewKeyshareCore conf).trustedKeys = GoMap.empty ∧
    (NewKeyshareCore conf).trustedKeys.len = 0 := by
  refine ⟨rfl, rfl, rfl, rfl, rfl, rfl, ?_, rfl, rfl, rfl, rfl⟩
  exact NewKeyshareCore_activeKeyRegistered conf

/-! ## Frame conditions -/

/-- C10: no key-management call changes `commitmentData`; the two AES calls leave
`signKey`, `signKeyID` and `trustedKeys` as they were; `setSignKey` leaves the AES keys
and `trustedKeys` as they were; `DangerousAddTrustedPublicKey` leaves the AES keys and
the signing key as they were. -/
theorem C10_key_ops_frame (c : Core) :
    (∀ op : Op, (op.apply c).commitmentData = c.commitmentData) ∧
    (∀ (id : uint32) (k : AesKey),
      (c.DangerousAddAESKey id k).signKey = c.signKey ∧
      (c.DangerousAddAESKey id k).signKeyID = c.signKeyID ∧
      (c.DangerousAddAESKey id k).trustedKeys = c.trustedKeys) ∧
    (∀ (id : uint32) (k : AesKey),
      (c.setAESEncryptionKey id k).signKey = c.signKey ∧
      (c.setAESEncryptionKey id k).signKeyID = c.signKeyID ∧
      (c.setAESEncryptionKey id k).trustedKeys = c.trustedKeys) ∧
    (∀ (id : uint32) (k : Option RsaPrivateKey),
      (c.setSignKey id k).decryptionKeys = c.decryptionKeys ∧
      (c.setSignKey id k).encryptionKey = c.encryptionKey ∧
      (c.setSignKey id k).encryptionKeyID = c.encryptionKeyID ∧
      (c.setSignKey id k).trustedKeys = c.trustedKeys) ∧
    (∀ (id : PublicKeyIdentifier) (k : Option PublicKey),
      (c.DangerousAddTrustedPublicKey id k).decryptionKeys = c.decryptionKeys ∧
      (c.DangerousAddTrustedPublicKey id k).encryptionKey = c.encryptionKey ∧
      (c.DangerousAddTrustedPublicKey id k).encryptionKeyID = c.encryptionKeyID ∧
      (c.DangerousAddTrustedPublicKey id k).signKey = c.signKey ∧
      (c.DangerousAddTrustedPublicKey id k).signKeyID = c.signKeyID) := by
  refine ⟨fun op => ?_, fun id k => ⟨rfl, rfl, rfl⟩, fun id k => ⟨rfl, rfl, rfl⟩,
    fun id k => ⟨rfl, rfl, rfl, rfl⟩, fun id k => ⟨rfl, rfl, rfl, rfl, rfl⟩⟩
  cases op <;> rfl

end Keysharecore
